import Mathlib

/-!
Verification of the CompasBD backend core against its specification.

This file gives a shallow embedding, in Lean 4, of the rate-limiting,
verification-code and authentication subsystems of the repository
(`app/services/security_service.py`, `app/services/verification_service.py`,
`app/services/auth_service.py`, `app/database/collections.py`,
`app/routes/auth.py`, `app/utils/validators.py`) and proves the behavioural
properties stated in the specification about them.

Modelling conventions:
* `datetime` values are integers (seconds); `timedelta(minutes=w)` is `60 * w`.
* The in-memory rate-limit dictionary `self.request_counts` is a total
  function `String → Option RateEntry` (`none` = key absent).
* The MongoDB `users` collection is a `List UserRec`; `find_one` is
  `List.find?` and `update_one` updates the first matching record, exactly
  as Mongo's single-document operations do.
* bcrypt hashing (`pwd_context.hash/verify`) and the secure random code
  generator are external effects; functions that use them are parametrised
  by them (`hash_password : String → String`,
  `verify_password : String → String → Bool`, `generated_code : String`).
* Python `int(x * 1.5)` and `int(x * 1.2)` applied to nonnegative machine
  integers are modelled as the exact rational floors `x * 3 / 2` and
  `x * 6 / 5` (natural-number division), which is what they evaluate to on
  the whole realistic input range.
-/

/-- Entry of the in-memory rate-limit dictionary: mirrors the dict
`{"count": ..., "first_request": ..., "expires": ...}` stored in
`SecurityService.request_counts`. -/
structure RateEntry where
  count : Nat
  first_request : Int
  expires : Int
deriving DecidableEq, Repr

/-- Return value of `SecurityService.check_rate_limit` on the non-faulting
path.  `retry_after = none` models the absence of the `"retry_after"` key. -/
structure RateLimitResult where
  allowed : Bool
  requests_remaining : Int
  reset_time : Int
  retry_after : Option Int
  accessibility_bonus : Bool
deriving DecidableEq, Repr

/-- The rate-limit dictionary `self.request_counts`, keyed by string. -/
def RateMap : Type := String → Option RateEntry

/-- Dictionary store `self.request_counts[key] = entry`. -/
def RateMap.set (m : RateMap) (k : String) (e : RateEntry) : RateMap :=
  fun k2 => if k2 = k then some e else m k2

/-- Embeds `SecurityService.get_rate_limit_key`.  Python's `if user_id:`
treats the empty string as falsy, hence the `isEmpty` test. -/
def get_rate_limit_key (ip endpoint : String) (user_id : Option String) : String :=
  match user_id with
  | some uid =>
      if uid.isEmpty then "ip_" ++ ip ++ "_" ++ endpoint
      else "user_" ++ uid ++ "_" ++ endpoint
  | none => "ip_" ++ ip ++ "_" ++ endpoint

/-- Embeds `max_requests = int(max_requests * 1.5)` applied when
`is_accessibility_user` holds (exact floor of `x * 1.5`). -/
def effective_max_requests (max_requests : Nat) (is_accessibility_user : Bool) : Nat :=
  if is_accessibility_user then max_requests * 3 / 2 else max_requests

/-- Embeds `window_minutes = int(window_minutes * 1.2)` applied when
`is_accessibility_user` holds (exact floor of `x * 1.2`). -/
def effective_window_minutes (window_minutes : Nat) (is_accessibility_user : Bool) : Nat :=
  if is_accessibility_user then window_minutes * 6 / 5 else window_minutes

/-- Embeds the body of `SecurityService.check_rate_limit`
(security_service.py lines 61-121): the state of the dictionary is passed
and returned explicitly. -/
def check_rate_limit (m : RateMap) (now : Int) (ip endpoint : String)
    (max_requests window_minutes : Nat) (user_id : Option String)
    (is_accessibility_user : Bool) : RateLimitResult × RateMap :=
  let key := get_rate_limit_key ip endpoint user_id
  let maxR := effective_max_requests max_requests is_accessibility_user
  let winM := effective_window_minutes window_minutes is_accessibility_user
  match m key with
  | none =>
      let entry : RateEntry :=
        { count := 1, first_request := now, expires := now + 60 * (winM : Int) }
      ({ allowed := true,
         requests_remaining := (maxR : Int) - 1,
         reset_time := entry.expires,
         retry_after := none,
         accessibility_bonus := is_accessibility_user }, m.set key entry)
  | some request_data =>
      if request_data.expires < now then
        let entry : RateEntry :=
          { count := 1, first_request := now, expires := now + 60 * (winM : Int) }
        ({ allowed := true,
           requests_remaining := (maxR : Int) - 1,
           reset_time := entry.expires,
           retry_after := none,
           accessibility_bonus := is_accessibility_user }, m.set key entry)
      else if maxR ≤ request_data.count then
        ({ allowed := false,
           requests_remaining := 0,
           reset_time := request_data.expires,
           retry_after := some (request_data.expires - now),
           accessibility_bonus := is_accessibility_user }, m)
      else
        let entry : RateEntry := { request_data with count := request_data.count + 1 }
        ({ allowed := true,
           requests_remaining := (maxR : Int) - (entry.count : Int),
           reset_time := request_data.expires,
           retry_after := none,
           accessibility_bonus := is_accessibility_user }, m.set key entry)

/-- Runs a sequence of `check_rate_limit` calls (same key parameters,
successive call times) threading the dictionary state. -/
def runRateCalls (ip endpoint : String) (max_requests window_minutes : Nat)
    (user_id : Option String) (is_accessibility_user : Bool) :
    RateMap → List Int → List RateLimitResult × RateMap
  | m, [] => ([], m)
  | m, t :: ts =>
      let step := check_rate_limit m t ip endpoint max_requests window_minutes
        user_id is_accessibility_user
      let rest := runRateCalls ip endpoint max_requests window_minutes
        user_id is_accessibility_user step.2 ts
      (step.1 :: rest.1, rest.2)

/-- Observable outcome of `check_rate_limit` including the `except` path,
whose Python return value is `{"allowed": True, "error": str(e)}`. -/
inductive RateLimitOutcome where
  | ok (result : RateLimitResult)
  | failOpen (allowed : Bool) (error : String)
deriving DecidableEq, Repr

/-- The `"allowed"` field of either outcome shape. -/
def RateLimitOutcome.allowed : RateLimitOutcome → Bool
  | .ok r => r.allowed
  | .failOpen a _ => a

/-- Embeds `check_rate_limit` together with its `try/except` wrapper
(security_service.py lines 61 and 123-126).  An internal fault is modelled
as `fault = some message`; the handler returns `{"allowed": True,
"error": str(e)}` and leaves the dictionary as it was. -/
def check_rate_limit_guarded (fault : Option String) (m : RateMap) (now : Int)
    (ip endpoint : String) (max_requests window_minutes : Nat)
    (user_id : Option String) (is_accessibility_user : Bool) :
    RateLimitOutcome × RateMap :=
  match fault with
  | none =>
      let step := check_rate_limit m now ip endpoint max_requests window_minutes
        user_id is_accessibility_user
      (.ok step.1, step.2)
  | some e => (.failOpen true e, m)

/-- One element of `security.password_reset_tokens`:
`{token, expires, used}` (see the `$elemMatch` query in
`app/routes/auth.py::reset_password`). -/
structure ResetToken where
  token : String
  expires : Int
  used : Bool
deriving DecidableEq, Repr

/-- The `security.email_verification_code` sub-document created by
`VerificationService.create_verification_code`. -/
structure VerificationCode where
  code : String
  expires_at : Int
  attempts : Nat
  created_at : Int
deriving DecidableEq, Repr

/-- The `security` sub-document of a user record (the fields the core
reads and writes). -/
structure SecurityInfo where
  failed_login_attempts : Nat
  account_locked_until : Option Int
  last_login : Option Int
  password_reset_tokens : List ResetToken
  email_verification_code : Option VerificationCode
  email_verified_at : Option Int
deriving DecidableEq, Repr

/-- A document of the `users` collection (the fields the core touches). -/
structure UserRec where
  id : String
  email : String
  password_hash : String
  is_active : Bool
  is_verified : Bool
  security : SecurityInfo
deriving DecidableEq, Repr

/-- Mongo `update_one`: apply `f` to the first record satisfying `p`,
leave everything else unchanged. -/
def updateFirst (p : UserRec → Bool) (f : UserRec → UserRec) :
    List UserRec → List UserRec
  | [] => []
  | u :: us => if p u then f u :: us else u :: updateFirst p f us

/-- Embeds `UsersCollection.find_user_by_email` (`find_one({"email": email})`). -/
def find_user_by_email (db : List UserRec) (email : String) : Option UserRec :=
  db.find? (fun u => u.email == email)

/-- Embeds `UsersCollection.find_user_by_id` (`find_one({"_id": ...})`). -/
def find_user_by_id (db : List UserRec) (user_id : String) : Option UserRec :=
  db.find? (fun u => u.id == user_id)

/-- Embeds `UsersCollection.update_user`: `$set` on the first record with
the given id; the boolean mirrors `modified_count > 0`.  The `$set` payload
of each call site is passed as the record transformer `f`. -/
def update_user (db : List UserRec) (user_id : String) (f : UserRec → UserRec) :
    Bool × List UserRec :=
  (db.any (fun u => u.id == user_id), updateFirst (fun u => u.id == user_id) f db)

/-- Embeds `UsersCollection.update_login_attempts`: `$inc` of
`security.failed_login_attempts` when `increment`, otherwise reset to 0 and
stamp `security.last_login`. -/
def update_login_attempts (db : List UserRec) (email : String) (increment : Bool)
    (now : Int) : List UserRec :=
  if increment then
    updateFirst (fun u => u.email == email)
      (fun u => { u with security :=
        { u.security with failed_login_attempts := u.security.failed_login_attempts + 1 } }) db
  else
    updateFirst (fun u => u.email == email)
      (fun u => { u with security :=
        { u.security with failed_login_attempts := 0, last_login := some now } }) db

/-- Embeds `UsersCollection.lock_account`: sets
`security.account_locked_until = now + duration_minutes`. -/
def lock_account (db : List UserRec) (email : String) (duration_minutes : Nat)
    (now : Int) : List UserRec :=
  updateFirst (fun u => u.email == email)
    (fun u => { u with security :=
      { u.security with account_locked_until := some (now + 60 * (duration_minutes : Int)) } }) db

/-- The guard `locked_until and locked_until > datetime.utcnow()` of
`AuthService.authenticate_user` (None is falsy). -/
def account_locked (user : UserRec) (now : Int) : Bool :=
  match user.security.account_locked_until with
  | some locked_until => now < locked_until
  | none => false

/-- Embeds `AuthService.authenticate_user` (auth_service.py lines 102-134).
`verify_password` stands for `pwd_context.verify`; `max_login_attempts` and
`lockout_duration_minutes` stand for `settings.MAX_LOGIN_ATTEMPTS` and
`settings.LOCKOUT_DURATION_MINUTES`.  Note that the lock test uses the
stale `user` dict fetched before the increment, as the Python does. -/
def authenticate_user (verify_password : String → String → Bool)
    (max_login_attempts lockout_duration_minutes : Nat)
    (db : List UserRec) (email password : String) (now : Int) :
    Option UserRec × List UserRec :=
  match find_user_by_email db email with
  | none => (none, db)
  | some user =>
      if account_locked user now then (none, db)
      else if ! verify_password password user.password_hash then
        let db1 := update_login_attempts db email true now
        let failed_attempts := user.security.failed_login_attempts + 1
        let db2 :=
          if max_login_attempts ≤ failed_attempts then
            lock_account db1 email lockout_duration_minutes now
          else db1
        (none, db2)
      else
        (some user, update_login_attempts db email false now)

/-- `VerificationService.MAX_ATTEMPTS`. -/
def MAX_ATTEMPTS : Nat := 5

/-- `VerificationService.CODE_EXPIRATION_MINUTES`. -/
def CODE_EXPIRATION_MINUTES : Nat := 15

/-- Embeds `VerificationService.create_verification_code`.  The secure
random 6-digit code produced by `generate_verification_code` is passed in
as `generated_code`; `now` is `datetime.utcnow()`. -/
def create_verification_code (generated_code : String) (now : Int)
    (db : List UserRec) (user_id : String) :
    Option VerificationCode × List UserRec :=
  let verification_data : VerificationCode :=
    { code := generated_code,
      expires_at := now + 60 * (CODE_EXPIRATION_MINUTES : Int),
      attempts := 0,
      created_at := now }
  let step := update_user db user_id (fun u =>
    { u with security :=
      { u.security with email_verification_code := some verification_data } })
  if step.1 then (some verification_data, step.2) else (none, step.2)

/-- Discriminated result of `VerificationService.verify_code`, following the
`error_type` strings of the returned dicts (`success` carries the
`user_id` of the successful return). -/
inductive VerifyResult where
  | user_not_found
  | no_code
  | expired
  | max_attempts
  | invalid_code (remaining_attempts : Nat)
  | success (user_id : String)
deriving DecidableEq, Repr

/-- The `"success"` field of a `verify_code` result dict. -/
def VerifyResult.isSuccess : VerifyResult → Bool
  | .success _ => true
  | _ => false

/-- Embeds `VerificationService.verify_code` (verification_service.py lines
86-157).  A wrong code `$set`s `security.email_verification_code.attempts`
to `attempts + 1`; a match `$set`s `is_verified`, clears the stored code and
stamps `security.email_verified_at`. -/
def verify_code (db : List UserRec) (email code : String) (now : Int) :
    VerifyResult × List UserRec :=
  match find_user_by_email db email with
  | none => (.user_not_found, db)
  | some user =>
      match user.security.email_verification_code with
      | none => (.no_code, db)
      | some verification_data =>
          if verification_data.expires_at < now then (.expired, db)
          else if MAX_ATTEMPTS ≤ verification_data.attempts then (.max_attempts, db)
          else if code ≠ verification_data.code then
            let db1 := (update_user db user.id (fun u =>
              { u with security := { u.security with email_verification_code :=
                  (u.security.email_verification_code.map (fun vd =>
                    { vd with attempts := verification_data.attempts + 1 })) } })).2
            (.invalid_code (MAX_ATTEMPTS - (verification_data.attempts + 1)), db1)
          else
            let db1 := (update_user db user.id (fun u =>
              { u with is_verified := true,
                       security := { u.security with
                         email_verification_code := none,
                         email_verified_at := some now } })).2
            (.success user.id, db1)

/-- Runs a sequence of `verify_code` calls `(email, code, time)`, threading
the collection state. -/
def verifySeq : List UserRec → List (String × String × Int) →
    List VerifyResult × List UserRec
  | db, [] => ([], db)
  | db, (email, code, t) :: calls =>
      let step := verify_code db email code t
      let rest := verifySeq step.2 calls
      (step.1 :: rest.1, rest.2)

/-- The special-character class of
`AccessibleValidators.validate_password_accessible`. -/
def PASSWORD_SPECIAL_CHARS : String := "!@#$%^&*(),.?\":\x7b\x7d|<>"

/-- Embeds the `valid` field of
`AccessibleValidators.validate_password_accessible`: `valid` is `errors == []`,
and an error is appended exactly when one of the five checks fails
(length ≥ 8, an upper-case letter, a lower-case letter, a digit, a special
character); the weak-pattern scan only lowers the strength score. -/
def validate_password_valid (password : String) : Bool :=
  !password.isEmpty &&
  decide (8 ≤ password.length) &&
  password.data.any (fun ch => decide ('A' ≤ ch) && decide (ch ≤ 'Z')) &&
  password.data.any (fun ch => decide ('a' ≤ ch) && decide (ch ≤ 'z')) &&
  password.data.any (fun ch => decide ('0' ≤ ch) && decide (ch ≤ '9')) &&
  password.data.any (fun ch => PASSWORD_SPECIAL_CHARS.data.contains ch)

/-- Embeds the `reset-password` route handler (`app/routes/auth.py` lines
408-475): validate the new password, look up a user holding a matching,
unexpired, unused reset token (`$elemMatch`), then `$set` the new hash,
clear the token list, zero the failed-attempt counter and null the lock.
`hash_password` stands for `auth_service.hash_password`; the boolean is the
`success` field of the response. -/
def reset_password (hash_password : String → String) (db : List UserRec)
    (token new_password : String) (now : Int) : Bool × List UserRec :=
  if ! validate_password_valid new_password then (false, db)
  else
    match db.find? (fun u => u.security.password_reset_tokens.any
        (fun rt => rt.token == token && decide (now < rt.expires) && !rt.used)) with
    | none => (false, db)
    | some user =>
        let step := update_user db user.id (fun u =>
          { u with password_hash := hash_password new_password,
                   security := { u.security with
                     password_reset_tokens := [],
                     failed_login_attempts := 0,
                     account_locked_until := none } })
        (true, step.2)

/-- Invariant of claim C6: every stored verification code has
`attempts ≤ MAX_ATTEMPTS`. -/
def AttemptsOK (db : List UserRec) : Prop :=
  ∀ u ∈ db, ∀ vd, u.security.email_verification_code = some vd →
    vd.attempts ≤ MAX_ATTEMPTS

/-- Concrete user-record fixture used by the witness theorems. -/
def mkWitnessUser (idv emailv hashv : String) (failed : Nat)
    (locked : Option Int) (code : Option VerificationCode)
    (tokens : List ResetToken) : UserRec :=
  { id := idv, email := emailv, password_hash := hashv, is_active := true,
    is_verified := false,
    security :=
      { failed_login_attempts := failed, account_locked_until := locked,
        last_login := none, password_reset_tokens := tokens,
        email_verification_code := code, email_verified_at := none } }

theorem RateMap.set_lookup_same (m : RateMap) (k : String) (e : RateEntry) :
    m.set k e k = some e := by
  simp [RateMap.set]

theorem RateMap.set_set (m : RateMap) (k : String) (e e2 : RateEntry) :
    (m.set k e).set k e2 = m.set k e2 := by
  funext k2
  simp only [RateMap.set]
  split <;> rfl

theorem RateMap.set_self (m : RateMap) (k : String) (e : RateEntry)
    (h : m k = some e) : m.set k e = m := by
  funext k2
  simp only [RateMap.set]
  split
  · next heq => rw [heq, h]
  · rfl

theorem runRateCalls_cons (ip endpoint : String) (mr wm : Nat) (uid : Option String)
    (acc : Bool) (m : RateMap) (t : Int) (ts : List Int) :
    runRateCalls ip endpoint mr wm uid acc m (t :: ts) =
      ((check_rate_limit m t ip endpoint mr wm uid acc).1 ::
        (runRateCalls ip endpoint mr wm uid acc
          (check_rate_limit m t ip endpoint mr wm uid acc).2 ts).1,
       (runRateCalls ip endpoint mr wm uid acc
          (check_rate_limit m t ip endpoint mr wm uid acc).2 ts).2) := rfl

theorem check_rate_limit_increment (m : RateMap) (t : Int) (ip endpoint : String)
    (mr wm : Nat) (uid : Option String) (acc : Bool) (c : Nat) (fr E : Int)
    (hm : m (get_rate_limit_key ip endpoint uid) = some ⟨c, fr, E⟩)
    (hE : ¬ E < t) (hc : c < effective_max_requests mr acc) :
    check_rate_limit m t ip endpoint mr wm uid acc =
      ({ allowed := true,
         requests_remaining := (effective_max_requests mr acc : Int) - ((c : Int) + 1),
         reset_time := E, retry_after := none, accessibility_bonus := acc },
       m.set (get_rate_limit_key ip endpoint uid) ⟨c + 1, fr, E⟩) := by
  simp [check_rate_limit, hm, hE, Nat.not_le.mpr hc]

theorem check_rate_limit_denied (m : RateMap) (t : Int) (ip endpoint : String)
    (mr wm : Nat) (uid : Option String) (acc : Bool) (c : Nat) (fr E : Int)
    (hm : m (get_rate_limit_key ip endpoint uid) = some ⟨c, fr, E⟩)
    (hE : ¬ E < t) (hc : effective_max_requests mr acc ≤ c) :
    check_rate_limit m t ip endpoint mr wm uid acc =
      ({ allowed := false, requests_remaining := 0, reset_time := E,
         retry_after := some (E - t), accessibility_bonus := acc }, m) := by
  simp [check_rate_limit, hm, hE, hc]

theorem check_rate_limit_fresh (m : RateMap) (t : Int) (ip endpoint : String)
    (mr wm : Nat) (uid : Option String) (acc : Bool)
    (hm : m (get_rate_limit_key ip endpoint uid) = none) :
    check_rate_limit m t ip endpoint mr wm uid acc =
      ({ allowed := true,
         requests_remaining := (effective_max_requests mr acc : Int) - 1,
         reset_time := t + 60 * (effective_window_minutes wm acc : Int),
         retry_after := none, accessibility_bonus := acc },
       m.set (get_rate_limit_key ip endpoint uid)
         ⟨1, t, t + 60 * (effective_window_minutes wm acc : Int)⟩) := by
  simp [check_rate_limit, hm]

theorem runRateCalls_within (ip endpoint : String) (mr wm : Nat)
    (uid : Option String) (acc : Bool) (ts : List Int) :
    ∀ (m : RateMap) (c : Nat) (fr E : Int),
      m (get_rate_limit_key ip endpoint uid) = some ⟨c, fr, E⟩ →
      (∀ t ∈ ts, ¬ E < t) →
      c + ts.length ≤ effective_max_requests mr acc →
      (∀ r ∈ (runRateCalls ip endpoint mr wm uid acc m ts).1, r.allowed = true) ∧
      (runRateCalls ip endpoint mr wm uid acc m ts).2 =
        m.set (get_rate_limit_key ip endpoint uid) ⟨c + ts.length, fr, E⟩ := by
  induction ts with
  | nil =>
      intro m c fr E hm _ _
      refine ⟨by intro r hr; simp [runRateCalls] at hr, ?_⟩
      simp only [runRateCalls, List.length_nil, Nat.add_zero]
      exact (RateMap.set_self m _ _ hm).symm
  | cons t ts ih =>
      intro m c fr E hm hts hcnt
      have hE : ¬ E < t := hts t (List.mem_cons_self t ts)
      have hc : c < effective_max_requests mr acc := by
        simp only [List.length_cons] at hcnt; omega
      have hstep := check_rate_limit_increment m t ip endpoint mr wm uid acc c fr E hm hE hc
      have hkey : (m.set (get_rate_limit_key ip endpoint uid) ⟨c + 1, fr, E⟩)
          (get_rate_limit_key ip endpoint uid) = some ⟨c + 1, fr, E⟩ :=
        RateMap.set_lookup_same m _ _
      have hrec := ih (m.set (get_rate_limit_key ip endpoint uid) ⟨c + 1, fr, E⟩)
        (c + 1) fr E hkey (fun t2 ht2 => hts t2 (List.mem_cons_of_mem t ht2))
        (by simp only [List.length_cons] at hcnt; omega)
      rw [runRateCalls_cons, hstep]
      constructor
      · intro r hr
        rcases List.mem_cons.mp hr with h | h
        · rw [h]
        · exact hrec.1 r h
      · rw [hrec.2, RateMap.set_set]
        have hlen : c + 1 + ts.length = c + (t :: ts).length := by
          simp only [List.length_cons]; omega
        rw [hlen]

/-- C1: for every `max_requests = n ≥ 1` and window, starting with no entry
for the key, a sequence of `check_rate_limit` calls on the same key within
the window returns `allowed = true` for calls 1 through n (the first call
creating an entry with `count = 1` and `requests_remaining = n - 1`), and
the (n+1)-th call returns `allowed = false` with `requests_remaining = 0`
and `retry_after > 0`. -/
theorem C1_rate_limit_quota (m : RateMap) (ip endpoint : String)
    (uid : Option String) (n w : Nat) (t0 tl : Int) (ts : List Int)
    (hn : 1 ≤ n)
    (hnone : m (get_rate_limit_key ip endpoint uid) = none)
    (hlen : ts.length = n - 1)
    (hts : ∀ t ∈ ts, t0 ≤ t ∧ t < t0 + 60 * (w : Int))
    (htl : t0 ≤ tl ∧ tl < t0 + 60 * (w : Int)) :
    (check_rate_limit m t0 ip endpoint n w uid false).1 =
      { allowed := true, requests_remaining := (n : Int) - 1,
        reset_time := t0 + 60 * (w : Int), retry_after := none,
        accessibility_bonus := false } ∧
    (check_rate_limit m t0 ip endpoint n w uid false).2
        (get_rate_limit_key ip endpoint uid) =
      some { count := 1, first_request := t0, expires := t0 + 60 * (w : Int) } ∧
    (∀ r ∈ (runRateCalls ip endpoint n w uid false m (t0 :: ts)).1,
      r.allowed = true) ∧
    (check_rate_limit (runRateCalls ip endpoint n w uid false m (t0 :: ts)).2 tl
        ip endpoint n w uid false).1 =
      { allowed := false, requests_remaining := 0,
        reset_time := t0 + 60 * (w : Int),
        retry_after := some (t0 + 60 * (w : Int) - tl),
        accessibility_bonus := false } ∧
    0 < t0 + 60 * (w : Int) - tl := by
  have heffm : effective_max_requests n false = n := rfl
  have heffw : effective_window_minutes w false = w := rfl
  have hfresh := check_rate_limit_fresh m t0 ip endpoint n w uid false hnone
  rw [heffm, heffw] at hfresh
  have hm1 : (m.set (get_rate_limit_key ip endpoint uid)
      ⟨1, t0, t0 + 60 * (w : Int)⟩) (get_rate_limit_key ip endpoint uid) =
      some ⟨1, t0, t0 + 60 * (w : Int)⟩ := RateMap.set_lookup_same m _ _
  have hrun := runRateCalls_within ip endpoint n w uid false ts
    (m.set (get_rate_limit_key ip endpoint uid) ⟨1, t0, t0 + 60 * (w : Int)⟩)
    1 t0 (t0 + 60 * (w : Int)) hm1
    (fun t ht => not_lt.mpr (le_of_lt (hts t ht).2))
    (by rw [heffm]; omega)
  have hfinal : (runRateCalls ip endpoint n w uid false m (t0 :: ts)).2
      (get_rate_limit_key ip endpoint uid) =
      some ⟨n, t0, t0 + 60 * (w : Int)⟩ := by
    rw [runRateCalls_cons, hfresh]
    dsimp only
    rw [hrun.2]
    have h1n : 1 + ts.length = n := by omega
    rw [h1n]
    exact RateMap.set_lookup_same _ _ _
  refine ⟨?_, ?_, ?_, ?_, ?_⟩
  · rw [hfresh]
  · rw [hfresh]; exact RateMap.set_lookup_same m _ _
  · intro r hr
    rw [runRateCalls_cons, hfresh] at hr
    dsimp only at hr
    rcases List.mem_cons.mp hr with h | h
    · rw [h]
    · exact hrun.1 r h
  · have hden := check_rate_limit_denied
      ((runRateCalls ip endpoint n w uid false m (t0 :: ts)).2) tl ip endpoint
      n w uid false n t0 (t0 + 60 * (w : Int)) hfinal
      (not_lt.mpr (le_of_lt htl.2)) (le_refl _)
    rw [hden]
  · omega

/-- Concrete run of `C1_rate_limit_quota`: one call allowed, the second
denied, for `max_requests = 1`, `window_minutes = 1`, key `ip_a_login`. -/
theorem C1_rate_limit_quota_witness :
    ((fun _ : String => (none : Option RateEntry))
        (get_rate_limit_key "a" "login" none) = none) ∧
    (([] : List Int).length = 1 - 1) ∧
    ((0 : Int) ≤ 30 ∧ (30 : Int) < 0 + 60 * (1 : Nat)) ∧
    ((check_rate_limit (fun _ => none) 0 "a" "login" 1 1 none false).1 =
      { allowed := true, requests_remaining := (1 : Int) - 1,
        reset_time := 0 + 60 * ((1 : Nat) : Int), retry_after := none,
        accessibility_bonus := false } ∧
    (check_rate_limit (fun _ => none) 0 "a" "login" 1 1 none false).2
        (get_rate_limit_key "a" "login" none) =
      some { count := 1, first_request := 0, expires := 0 + 60 * ((1 : Nat) : Int) } ∧
    (∀ r ∈ (runRateCalls "a" "login" 1 1 none false (fun _ => none) [0]).1,
      r.allowed = true) ∧
    (check_rate_limit (runRateCalls "a" "login" 1 1 none false (fun _ => none) [0]).2
        30 "a" "login" 1 1 none false).1 =
      { allowed := false, requests_remaining := 0,
        reset_time := 0 + 60 * ((1 : Nat) : Int),
        retry_after := some (0 + 60 * ((1 : Nat) : Int) - 30),
        accessibility_bonus := false } ∧
    (0 : Int) < 0 + 60 * ((1 : Nat) : Int) - 30) :=
  ⟨rfl, rfl, by constructor <;> decide,
    C1_rate_limit_quota (fun _ => none) "a" "login" none 1 1 0 30 []
      (by decide) rfl rfl (by intro t ht; simp at ht) (by constructor <;> decide)⟩

theorem effective_max_requests_floor (mr : Nat) :
    effective_max_requests mr true = Nat.floor ((mr : ℚ) * (3 / 2)) := by
  have h : ((mr : ℚ) * (3 / 2)) = ((mr * 3 : Nat) : ℚ) / ((2 : Nat) : ℚ) := by
    push_cast; ring
  rw [effective_max_requests, if_pos rfl, h, Nat.floor_div_eq_div]

theorem effective_window_minutes_floor (wm : Nat) :
    effective_window_minutes wm true = Nat.floor ((wm : ℚ) * (6 / 5)) := by
  have h : ((wm : ℚ) * (6 / 5)) = ((wm * 6 : Nat) : ℚ) / ((5 : Nat) : ℚ) := by
    push_cast; ring
  rw [effective_window_minutes, if_pos rfl, h, Nat.floor_div_eq_div]

/-- C5: with `is_accessibility_user = true` the effective quota is
`floor(base * 1.5)` and the effective window `floor(base * 1.2)`; in
particular with base `max_requests = 10` the quota is 15: calls 1 through
15 within the (effective) window are allowed — so in particular the 11th
through 15th — and the 16th is denied. -/
theorem C5_accessibility_quota (m : RateMap) (ip endpoint : String)
    (uid : Option String) (w : Nat) (t0 tl : Int) (ts : List Int)
    (hnone : m (get_rate_limit_key ip endpoint uid) = none)
    (hlen : ts.length = 14)
    (hts : ∀ t ∈ ts, t0 ≤ t ∧
      t < t0 + 60 * ((effective_window_minutes w true : Nat) : Int))
    (htl : t0 ≤ tl ∧ tl < t0 + 60 * ((effective_window_minutes w true : Nat) : Int)) :
    (∀ mr : Nat, effective_max_requests mr true = Nat.floor ((mr : ℚ) * (3 / 2))) ∧
    (∀ wm : Nat, effective_window_minutes wm true = Nat.floor ((wm : ℚ) * (6 / 5))) ∧
    effective_max_requests 10 true = 15 ∧
    (∀ r ∈ (runRateCalls ip endpoint 10 w uid true m (t0 :: ts)).1,
      r.allowed = true) ∧
    (check_rate_limit (runRateCalls ip endpoint 10 w uid true m (t0 :: ts)).2 tl
        ip endpoint 10 w uid true).1 =
      { allowed := false, requests_remaining := 0,
        reset_time := t0 + 60 * ((effective_window_minutes w true : Nat) : Int),
        retry_after := some (t0 + 60 * ((effective_window_minutes w true : Nat) : Int) - tl),
        accessibility_bonus := true } := by
  have heffm : effective_max_requests 10 true = 15 := rfl
  have hfresh := check_rate_limit_fresh m t0 ip endpoint 10 w uid true hnone
  rw [heffm] at hfresh
  have hm1 : (m.set (get_rate_limit_key ip endpoint uid)
      ⟨1, t0, t0 + 60 * ((effective_window_minutes w true : Nat) : Int)⟩)
      (get_rate_limit_key ip endpoint uid) =
      some ⟨1, t0, t0 + 60 * ((effective_window_minutes w true : Nat) : Int)⟩ :=
    RateMap.set_lookup_same m _ _
  have hrun := runRateCalls_within ip endpoint 10 w uid true ts
    (m.set (get_rate_limit_key ip endpoint uid)
      ⟨1, t0, t0 + 60 * ((effective_window_minutes w true : Nat) : Int)⟩)
    1 t0 (t0 + 60 * ((effective_window_minutes w true : Nat) : Int)) hm1
    (fun t ht => not_lt.mpr (le_of_lt (hts t ht).2))
    (by rw [heffm]; omega)
  have hfinal : (runRateCalls ip endpoint 10 w uid true m (t0 :: ts)).2
      (get_rate_limit_key ip endpoint uid) =
      some ⟨15, t0, t0 + 60 * ((effective_window_minutes w true : Nat) : Int)⟩ := by
    rw [runRateCalls_cons, hfresh]
    dsimp only
    rw [hrun.2]
    have h1n : 1 + ts.length = 15 := by omega
    rw [h1n]
    exact RateMap.set_lookup_same _ _ _
  refine ⟨effective_max_requests_floor, effective_window_minutes_floor, heffm, ?_, ?_⟩
  · intro r hr
    rw [runRateCalls_cons, hfresh] at hr
    dsimp only at hr
    rcases List.mem_cons.mp hr with h | h
    · rw [h]
    · exact hrun.1 r h
  · have hden := check_rate_limit_denied
      ((runRateCalls ip endpoint 10 w uid true m (t0 :: ts)).2) tl ip endpoint
      10 w uid true 15 t0 (t0 + 60 * ((effective_window_minutes w true : Nat) : Int))
      hfinal (not_lt.mpr (le_of_lt htl.2)) (by rw [heffm])
    rw [hden]

/-- Concrete run of `C5_accessibility_quota`: base max 10, window 5 minutes
(effective window 6 minutes), 15 calls at time 0 allowed, 16th at time 1
denied. -/
theorem C5_accessibility_quota_witness :
    ((fun _ : String => (none : Option RateEntry))
        (get_rate_limit_key "a" "login" (some "u1")) = none) ∧
    ((List.replicate 14 (0 : Int)).length = 14) ∧
    (∀ t ∈ List.replicate 14 (0 : Int), (0 : Int) ≤ t ∧
      t < 0 + 60 * ((effective_window_minutes 5 true : Nat) : Int)) ∧
    ((0 : Int) ≤ 1 ∧ (1 : Int) < 0 + 60 * ((effective_window_minutes 5 true : Nat) : Int)) ∧
    (effective_max_requests 10 true = 15 ∧
     (∀ r ∈ (runRateCalls "a" "login" 10 5 (some "u1") true (fun _ => none)
        (0 :: List.replicate 14 (0 : Int))).1, r.allowed = true) ∧
     (check_rate_limit (runRateCalls "a" "login" 10 5 (some "u1") true (fun _ => none)
        (0 :: List.replicate 14 (0 : Int))).2 1 "a" "login" 10 5 (some "u1") true).1 =
      { allowed := false, requests_remaining := 0,
        reset_time := 0 + 60 * ((effective_window_minutes 5 true : Nat) : Int),
        retry_after := some (0 + 60 * ((effective_window_minutes 5 true : Nat) : Int) - 1),
        accessibility_bonus := true }) :=
  ⟨rfl, rfl,
   by intro t ht; rw [List.eq_of_mem_replicate ht]; exact ⟨le_refl 0, by decide⟩,
   ⟨by decide, by decide⟩,
   (fun h => ⟨h.2.2.1, h.2.2.2.1, h.2.2.2.2⟩)
     (C5_accessibility_quota (fun _ => none) "a" "login" (some "u1") 5 0 1
       (List.replicate 14 (0 : Int)) rfl rfl
       (by intro t ht; rw [List.eq_of_mem_replicate ht]; exact ⟨le_refl 0, by decide⟩)
       ⟨by decide, by decide⟩)⟩

/-- C7: if an internal fault occurs inside `check_rate_limit`, the call
returns `allowed = true` (the limiter fails open) instead of propagating
the fault. -/
theorem C7_rate_limit_fails_open (fault : Option String) (m : RateMap)
    (now : Int) (ip endpoint : String) (max_requests window_minutes : Nat)
    (uid : Option String) (acc : Bool) (e : String)
    (hf : fault = some e) :
    (check_rate_limit_guarded fault m now ip endpoint max_requests
        window_minutes uid acc).1.allowed = true ∧
    (check_rate_limit_guarded fault m now ip endpoint max_requests
        window_minutes uid acc).1 = .failOpen true e := by
  subst hf
  exact ⟨rfl, rfl⟩

/-- Concrete run of `C7_rate_limit_fails_open` on a faulting call. -/
theorem C7_rate_limit_fails_open_witness :
    (some "boom" = some "boom") ∧
    (check_rate_limit_guarded (some "boom") (fun _ => none) 0 "a" "login"
        10 1 none false).1.allowed = true ∧
    (check_rate_limit_guarded (some "boom") (fun _ => none) 0 "a" "login"
        10 1 none false).1 = .failOpen true "boom" :=
  ⟨rfl, C7_rate_limit_fails_open (some "boom") (fun _ => none) 0 "a" "login"
    10 1 none false "boom" rfl⟩

/-- C9: a `check_rate_limit` call that returns `allowed = false` leaves the
whole dictionary — in particular the entry for its key, with its `count`,
`first_request` and `expires` — unchanged, so denied requests consume no
quota and do not move the reset time. -/
theorem C9_denied_leaves_state (m : RateMap) (now : Int) (ip endpoint : String)
    (max_requests window_minutes : Nat) (uid : Option String) (acc : Bool)
    (hdenied : (check_rate_limit m now ip endpoint max_requests window_minutes
        uid acc).1.allowed = false) :
    (check_rate_limit m now ip endpoint max_requests window_minutes uid acc).2
      = m := by
  simp only [check_rate_limit] at hdenied ⊢
  rcases hm : m (get_rate_limit_key ip endpoint uid) with _ | rd
  · rw [hm] at hdenied
    simp at hdenied
  · rw [hm] at hdenied
    dsimp only at hdenied ⊢
    by_cases hexp : rd.expires < now
    · rw [if_pos hexp] at hdenied
      simp at hdenied
    · rw [if_neg hexp] at hdenied ⊢
      by_cases hcnt : effective_max_requests max_requests acc ≤ rd.count
      · rw [if_pos hcnt]
      · rw [if_neg hcnt] at hdenied
        simp at hdenied

/-- Concrete run of `C9_denied_leaves_state`: a full entry (count 3 = max 3)
is denied and the dictionary is returned untouched. -/
theorem C9_denied_leaves_state_witness :
    ((check_rate_limit
        (RateMap.set (fun _ => none) (get_rate_limit_key "a" "login" none)
          ⟨3, 0, 600⟩) 10 "a" "login" 3 1 none false).1.allowed = false) ∧
    ((check_rate_limit
        (RateMap.set (fun _ => none) (get_rate_limit_key "a" "login" none)
          ⟨3, 0, 600⟩) 10 "a" "login" 3 1 none false).2 =
      RateMap.set (fun _ => none) (get_rate_limit_key "a" "login" none)
        ⟨3, 0, 600⟩) :=
  ⟨rfl, C9_denied_leaves_state _ 10 "a" "login" 3 1 none false rfl⟩

theorem updateFirst_cons (p : UserRec → Bool) (f : UserRec → UserRec)
    (u : UserRec) (us : List UserRec) :
    updateFirst p f (u :: us) =
      if p u then f u :: us else u :: updateFirst p f us := rfl

theorem find?_updateFirst_self (p : UserRec → Bool) (f : UserRec → UserRec)
    (hpf : ∀ u, p u = true → p (f u) = true) :
    ∀ l : List UserRec, (updateFirst p f l).find? p = (l.find? p).map f := by
  intro l
  induction l with
  | nil => rfl
  | cons u us ih =>
      rw [updateFirst_cons]
      by_cases hp : p u = true
      · rw [if_pos hp]
        rw [List.find?_cons_of_pos _ (hpf u hp), List.find?_cons_of_pos _ hp]
        rfl
      · rw [if_neg (by simpa using hp)]
        rw [List.find?_cons_of_neg _ (by simpa using hp),
          List.find?_cons_of_neg _ (by simpa using hp)]
        exact ih

theorem mem_updateFirst (p : UserRec → Bool) (f : UserRec → UserRec) :
    ∀ (l : List UserRec) (v : UserRec), v ∈ updateFirst p f l →
      v ∈ l ∨ ∃ w, w ∈ l ∧ p w = true ∧ v = f w := by
  intro l
  induction l with
  | nil => intro v hv; exact absurd hv (by simp [updateFirst])
  | cons u us ih =>
      intro v hv
      rw [updateFirst_cons] at hv
      by_cases hp : p u = true
      · rw [if_pos hp] at hv
        rcases List.mem_cons.mp hv with h | h
        · exact Or.inr ⟨u, List.mem_cons_self u us, hp, h⟩
        · exact Or.inl (List.mem_cons_of_mem u h)
      · rw [if_neg (by simpa using hp)] at hv
        rcases List.mem_cons.mp hv with h | h
        · exact Or.inl (h ▸ List.mem_cons_self u us)
        · rcases ih v h with h2 | ⟨w, hw, hpw, hvw⟩
          · exact Or.inl (List.mem_cons_of_mem u h2)
          · exact Or.inr ⟨w, List.mem_cons_of_mem u hw, hpw, hvw⟩

theorem map_id_updateFirst (p : UserRec → Bool) (f : UserRec → UserRec)
    (hfi : ∀ u, (f u).id = u.id) :
    ∀ l : List UserRec,
      (updateFirst p f l).map (fun v => v.id) = l.map (fun v => v.id) := by
  intro l
  induction l with
  | nil => rfl
  | cons u us ih =>
      rw [updateFirst_cons]
      by_cases hp : p u = true
      · rw [if_pos hp]
        simp [hfi u]
      · rw [if_neg (by simpa using hp)]
        simp [ih]

theorem nodup_ids_updateFirst (p : UserRec → Bool) (f : UserRec → UserRec)
    (hfi : ∀ u, (f u).id = u.id) (l : List UserRec)
    (h : (l.map (fun v => v.id)).Nodup) :
    ((updateFirst p f l).map (fun v => v.id)).Nodup := by
  rw [map_id_updateFirst p f hfi l]
  exact h

theorem find_email_updateFirst_id (email : String) (u : UserRec)
    (f : UserRec → UserRec) (hfe : (f u).email = u.email) :
    ∀ l : List UserRec, find_user_by_email l email = some u →
      (l.map (fun v => v.id)).Nodup →
      find_user_by_email (updateFirst (fun v => v.id == u.id) f l) email =
        some (f u) := by
  intro l
  induction l with
  | nil => intro hfind; exact absurd hfind (by simp [find_user_by_email])
  | cons x xs ih =>
      intro hfind hids
      rw [find_user_by_email] at hfind
      rw [updateFirst_cons]
      by_cases hx : (x.email == email) = true
      · rw [List.find?_cons_of_pos (p := fun v : UserRec => v.email == email) _ hx] at hfind
        have hxu : x = u := by injection hfind
        subst hxu
        rw [if_pos (by simp)]
        have hfx : ((f x).email == email) = true := by
          have h2 : (f x).email = x.email := hfe
          rw [h2]; exact hx
        show List.find? (fun v => v.email == email) (f x :: xs) = some (f x)
        exact List.find?_cons_of_pos _ hfx
      · rw [List.find?_cons_of_neg _ (by simpa using hx)] at hfind
        have hu_mem : u ∈ xs := List.mem_of_find?_eq_some hfind
        have hxid : (x.id == u.id) = false := by
          rw [List.map_cons, List.nodup_cons] at hids
          have huid : u.id ∈ xs.map (fun v => v.id) :=
            List.mem_map_of_mem (fun v => v.id) hu_mem
          simp only [beq_eq_false_iff_ne, ne_eq]
          intro hcontra
          exact hids.1 (hcontra ▸ huid)
        rw [if_neg (by simp [hxid])]
        have hids2 : (xs.map (fun v => v.id)).Nodup := by
          rw [List.map_cons, List.nodup_cons] at hids
          exact hids.2
        show List.find? (fun v => v.email == email)
          (x :: updateFirst (fun v => v.id == u.id) f xs) = some (f u)
        rw [List.find?_cons_of_neg _ (by simpa using hx)]
        exact ih hfind hids2

theorem find_id_of_mem_nodup :
    ∀ (l : List UserRec) (u : UserRec), u ∈ l →
      (l.map (fun v => v.id)).Nodup → find_user_by_id l u.id = some u := by
  intro l
  induction l with
  | nil => intro u hu; exact absurd hu (by simp)
  | cons x xs ih =>
      intro u hu hids
      rw [List.map_cons, List.nodup_cons] at hids
      rcases List.mem_cons.mp hu with h | h
      · subst h
        show List.find? (fun v => v.id == u.id) (u :: xs) = some u
        exact List.find?_cons_of_pos _ (by simp)
      · have hxid : (x.id == u.id) = false := by
          have huid : u.id ∈ xs.map (fun v => v.id) :=
            List.mem_map_of_mem (fun v => v.id) h
          simp only [beq_eq_false_iff_ne, ne_eq]
          intro hcontra
          exact hids.1 (hcontra ▸ huid)
        show List.find? (fun v => v.id == u.id) (x :: xs) = some u
        rw [List.find?_cons_of_neg _ (by simp [hxid])]
        exact ih u h hids.2

theorem any_id_of_find_email (l : List UserRec) (email : String) (u : UserRec)
    (hfind : find_user_by_email l email = some u) :
    l.any (fun v => v.id == u.id) = true := by
  have hu := List.mem_of_find?_eq_some hfind
  exact List.any_eq_true.mpr ⟨u, hu, by simp⟩

theorem find_email_updateFirst_email (db : List UserRec) (email : String)
    (u : UserRec) (f : UserRec → UserRec)
    (hfind : find_user_by_email db email = some u)
    (hpf : ∀ v, (v.email == email) = true → ((f v).email == email) = true) :
    find_user_by_email (updateFirst (fun v => v.email == email) f db) email =
      some (f u) := by
  show (updateFirst (fun v => v.email == email) f db).find?
    (fun v => v.email == email) = some (f u)
  rw [find?_updateFirst_self _ _ hpf db]
  rw [show db.find? (fun v => v.email == email) = some u from hfind]
  rfl

theorem auth_wrong_password_step
    (verify_password : String → String → Bool) (maxA lockM : Nat)
    (db : List UserRec) (email password : String) (now : Int) (u : UserRec)
    (hfind : find_user_by_email db email = some u)
    (hnl : account_locked u now = false)
    (hwrong : verify_password password u.password_hash = false) :
    (authenticate_user verify_password maxA lockM db email password now).1 = none ∧
    (find_user_by_email
        (authenticate_user verify_password maxA lockM db email password now).2
        email).map (fun v => v.security.failed_login_attempts) =
      some (u.security.failed_login_attempts + 1) ∧
    (maxA ≤ u.security.failed_login_attempts + 1 →
      (find_user_by_email
          (authenticate_user verify_password maxA lockM db email password now).2
          email).map (fun v => v.security.account_locked_until) =
        some (some (now + 60 * (lockM : Int)))) := by
  have hauth : authenticate_user verify_password maxA lockM db email password now =
      (none,
       if maxA ≤ u.security.failed_login_attempts + 1 then
         lock_account (update_login_attempts db email true now) email lockM now
       else update_login_attempts db email true now) := by
    simp [authenticate_user, hfind, hnl, hwrong]
  have hf1 : find_user_by_email (update_login_attempts db email true now) email =
      some { u with security :=
        { u.security with failed_login_attempts :=
            u.security.failed_login_attempts + 1 } } := by
    rw [update_login_attempts, if_pos rfl]
    exact find_email_updateFirst_email db email u _ hfind (fun v hv => hv)
  have hf2 : find_user_by_email
      (lock_account (update_login_attempts db email true now) email lockM now)
      email =
      some { u with security :=
        { u.security with
            failed_login_attempts := u.security.failed_login_attempts + 1,
            account_locked_until := some (now + 60 * (lockM : Int)) } } := by
    rw [lock_account]
    exact find_email_updateFirst_email _ email _ _ hf1 (fun v hv => hv)
  refine ⟨by rw [hauth], ?_, ?_⟩
  · rw [hauth]
    dsimp only
    by_cases hth : maxA ≤ u.security.failed_login_attempts + 1
    · rw [if_pos hth, hf2]; rfl
    · rw [if_neg hth, hf1]; rfl
  · intro hth
    rw [hauth]
    dsimp only
    rw [if_pos hth, hf2]
    rfl

/-- C2: in `authenticate_user`, a wrong password increments
`failed_login_attempts`, and when the incremented count reaches
`MAX_LOGIN_ATTEMPTS` the same call also sets
`account_locked_until = now + LOCKOUT_DURATION` in the same step; while
`account_locked_until` lies in the future, the call returns `none`
whatever the submitted password — even the correct one. -/
theorem C2_lockout_count_then_lock
    (verify_password : String → String → Bool) (maxA lockM : Nat)
    (db : List UserRec) (email password : String) (now : Int) (u : UserRec)
    (hfind : find_user_by_email db email = some u) :
    (account_locked u now = false →
     verify_password password u.password_hash = false →
     (authenticate_user verify_password maxA lockM db email password now).1 = none ∧
     (find_user_by_email
        (authenticate_user verify_password maxA lockM db email password now).2
        email).map (fun v => v.security.failed_login_attempts) =
       some (u.security.failed_login_attempts + 1) ∧
     (maxA ≤ u.security.failed_login_attempts + 1 →
       (find_user_by_email
          (authenticate_user verify_password maxA lockM db email password now).2
          email).map (fun v => v.security.account_locked_until) =
         some (some (now + 60 * (lockM : Int))))) ∧
    (∀ locked_until : Int, u.security.account_locked_until = some locked_until →
      now < locked_until →
      authenticate_user verify_password maxA lockM db email password now =
        (none, db)) := by
  constructor
  · intro hnl hwrong
    exact auth_wrong_password_step verify_password maxA lockM db email password
      now u hfind hnl hwrong
  · intro locked_until hlu hfut
    have hl : account_locked u now = true := by
      rw [account_locked, hlu]
      simpa using hfut
    simp [authenticate_user, hfind, hl]

/-- Concrete run of `C2_lockout_count_then_lock`: threshold 5, a user at 4
failures is locked by a 5th wrong password (lock = 100 + 60·15 = 1000),
and a locked user is refused even with the correct password. -/
theorem C2_lockout_count_then_lock_witness :
    (find_user_by_email [mkWitnessUser "1" "a@b.c" "pw" 4 none none []] "a@b.c" =
      some (mkWitnessUser "1" "a@b.c" "pw" 4 none none [])) ∧
    (account_locked (mkWitnessUser "1" "a@b.c" "pw" 4 none none []) 100 = false) ∧
    ((fun p h => p == h) "wrong"
      (mkWitnessUser "1" "a@b.c" "pw" 4 none none []).password_hash = false) ∧
    ((authenticate_user (fun p h => p == h) 5 15
        [mkWitnessUser "1" "a@b.c" "pw" 4 none none []] "a@b.c" "wrong" 100).1 =
      none ∧
     (find_user_by_email (authenticate_user (fun p h => p == h) 5 15
        [mkWitnessUser "1" "a@b.c" "pw" 4 none none []] "a@b.c" "wrong" 100).2
        "a@b.c").map (fun v => v.security.failed_login_attempts) =
      some ((mkWitnessUser "1" "a@b.c" "pw" 4 none none
        []).security.failed_login_attempts + 1) ∧
     (find_user_by_email (authenticate_user (fun p h => p == h) 5 15
        [mkWitnessUser "1" "a@b.c" "pw" 4 none none []] "a@b.c" "wrong" 100).2
        "a@b.c").map (fun v => v.security.account_locked_until) =
      some (some (100 + 60 * ((15 : Nat) : Int)))) ∧
    (authenticate_user (fun p h => p == h) 5 15
        [mkWitnessUser "2" "d@b.c" "pw" 5 (some 1000) none []] "d@b.c" "pw" 100 =
      (none, [mkWitnessUser "2" "d@b.c" "pw" 5 (some 1000) none []])) := by
  have h := C2_lockout_count_then_lock (fun p h => p == h) 5 15
    [mkWitnessUser "1" "a@b.c" "pw" 4 none none []] "a@b.c" "wrong" 100
    (mkWitnessUser "1" "a@b.c" "pw" 4 none none []) rfl
  have h1 := h.1 rfl rfl
  have h2 := C2_lockout_count_then_lock (fun p h => p == h) 5 15
    [mkWitnessUser "2" "d@b.c" "pw" 5 (some 1000) none []] "d@b.c" "pw" 100
    (mkWitnessUser "2" "d@b.c" "pw" 5 (some 1000) none []) rfl
  exact ⟨rfl, rfl, rfl, ⟨h1.1, h1.2.1, h1.2.2 (by decide)⟩,
    h2.2 1000 rfl (by decide)⟩

/-- C10: lockout expiry does not reset `failed_login_attempts`, so for a
user whose stored count is already ≥ `MAX_LOGIN_ATTEMPTS` and whose
`account_locked_until` has passed, a single further wrong-password
`authenticate_user` call increments the counter and immediately sets a
fresh `account_locked_until` a full lockout duration in the future. -/
theorem C10_relock_after_expiry
    (verify_password : String → String → Bool) (maxA lockM : Nat)
    (db : List UserRec) (email password : String) (now locked_until : Int)
    (u : UserRec)
    (hfind : find_user_by_email db email = some u)
    (hlu : u.security.account_locked_until = some locked_until)
    (hpast : locked_until ≤ now)
    (hge : maxA ≤ u.security.failed_login_attempts)
    (hwrong : verify_password password u.password_hash = false) :
    (authenticate_user verify_password maxA lockM db email password now).1 = none ∧
    (find_user_by_email
        (authenticate_user verify_password maxA lockM db email password now).2
        email).map (fun v => v.security.failed_login_attempts) =
      some (u.security.failed_login_attempts + 1) ∧
    (find_user_by_email
        (authenticate_user verify_password maxA lockM db email password now).2
        email).map (fun v => v.security.account_locked_until) =
      some (some (now + 60 * (lockM : Int))) := by
  have hnl : account_locked u now = false := by
    rw [account_locked, hlu]
    simpa using hpast
  have h := auth_wrong_password_step verify_password maxA lockM db email
    password now u hfind hnl hwrong
  exact ⟨h.1, h.2.1, h.2.2 (Nat.le_succ_of_le hge)⟩

/-- Concrete run of `C10_relock_after_expiry`: a user at 7 failures whose
lock expired at 50 is re-locked at 100 + 900 = 1000 by one wrong attempt. -/
theorem C10_relock_after_expiry_witness :
    (find_user_by_email [mkWitnessUser "3" "e@b.c" "pw" 7 (some 50) none []]
      "e@b.c" = some (mkWitnessUser "3" "e@b.c" "pw" 7 (some 50) none [])) ∧
    ((mkWitnessUser "3" "e@b.c" "pw" 7 (some 50) none
      []).security.account_locked_until = some 50) ∧
    ((50 : Int) ≤ 100) ∧
    (5 ≤ (mkWitnessUser "3" "e@b.c" "pw" 7 (some 50) none
      []).security.failed_login_attempts) ∧
    ((fun p h => p == h) "wrong"
      (mkWitnessUser "3" "e@b.c" "pw" 7 (some 50) none []).password_hash =
      false) ∧
    ((authenticate_user (fun p h => p == h) 5 15
        [mkWitnessUser "3" "e@b.c" "pw" 7 (some 50) none []] "e@b.c" "wrong"
        100).1 = none ∧
     (find_user_by_email (authenticate_user (fun p h => p == h) 5 15
        [mkWitnessUser "3" "e@b.c" "pw" 7 (some 50) none []] "e@b.c" "wrong"
        100).2 "e@b.c").map (fun v => v.security.failed_login_attempts) =
      some ((mkWitnessUser "3" "e@b.c" "pw" 7 (some 50) none
        []).security.failed_login_attempts + 1) ∧
     (find_user_by_email (authenticate_user (fun p h => p == h) 5 15
        [mkWitnessUser "3" "e@b.c" "pw" 7 (some 50) none []] "e@b.c" "wrong"
        100).2 "e@b.c").map (fun v => v.security.account_locked_until) =
      some (some (100 + 60 * ((15 : Nat) : Int)))) :=
  ⟨rfl, rfl, by decide, by decide, rfl,
   C10_relock_after_expiry (fun p h => p == h) 5 15
     [mkWitnessUser "3" "e@b.c" "pw" 7 (some 50) none []] "e@b.c" "wrong"
     100 50 (mkWitnessUser "3" "e@b.c" "pw" 7 (some 50) none [])
     rfl rfl (by decide) (by decide) rfl⟩

/-- C8: a successful password reset — `reset_password` with a valid new
password and a token matching a stored reset token that is unexpired and
unused — stores the new password hash, sets `failed_login_attempts` to 0
and `account_locked_until` to `null`, i.e. it unlocks a locked account. -/
theorem C8_reset_password_unlocks
    (hash_password : String → String) (db : List UserRec)
    (token new_password : String) (now : Int) (u : UserRec)
    (hvalid : validate_password_valid new_password = true)
    (hfind : db.find? (fun v => v.security.password_reset_tokens.any
        (fun rt => rt.token == token && decide (now < rt.expires) && !rt.used)) =
      some u)
    (hids : (db.map (fun v => v.id)).Nodup) :
    (reset_password hash_password db token new_password now).1 = true ∧
    (find_user_by_id (reset_password hash_password db token new_password now).2
        u.id).map (fun v =>
      (v.password_hash, v.security.failed_login_attempts,
        v.security.account_locked_until)) =
      some (hash_password new_password, 0, none) := by
  have hred : reset_password hash_password db token new_password now =
      (true, updateFirst (fun v => v.id == u.id) (fun v =>
        { v with
          password_hash := hash_password new_password,
          security := { v.security with
            password_reset_tokens := [],
            failed_login_attempts := 0,
            account_locked_until := none } }) db) := by
    simp [reset_password, hvalid, hfind, update_user]
  have hu_mem : u ∈ db := List.mem_of_find?_eq_some hfind
  have hfid : find_user_by_id db u.id = some u :=
    find_id_of_mem_nodup db u hu_mem hids
  have hfidU : find_user_by_id (updateFirst (fun v => v.id == u.id) (fun v =>
      { v with
        password_hash := hash_password new_password,
        security := { v.security with
          password_reset_tokens := [],
          failed_login_attempts := 0,
          account_locked_until := none } }) db) u.id =
      some { u with
        password_hash := hash_password new_password,
        security := { u.security with
          password_reset_tokens := [],
          failed_login_attempts := 0,
          account_locked_until := none } } := by
    show (updateFirst (fun v => v.id == u.id) _ db).find?
      (fun v => v.id == u.id) = _
    rw [find?_updateFirst_self (fun v => v.id == u.id) (fun v =>
      { v with
        password_hash := hash_password new_password,
        security := { v.security with
          password_reset_tokens := [],
          failed_login_attempts := 0,
          account_locked_until := none } }) (fun v hv => hv) db]
    rw [show db.find? (fun v => v.id == u.id) = some u from hfid]
    rfl
  refine ⟨by rw [hred], ?_⟩
  rw [hred]
  dsimp only
  rw [hfidU]
  rfl

/-- Concrete run of `C8_reset_password_unlocks`: a locked user at 3 failed
attempts holding token "tok" (expires 100, unused) is reset at time 50 with
a valid password; the record ends unlocked with 0 failures. -/
theorem C8_reset_password_unlocks_witness :
    (validate_password_valid "Passw0rd!" = true) ∧
    ([mkWitnessUser "1" "a@b.c" "old" 3 (some 500) none
        [{ token := "tok", expires := 100, used := false }]].find?
      (fun v => v.security.password_reset_tokens.any
        (fun rt => rt.token == "tok" && decide ((50 : Int) < rt.expires) &&
          !rt.used)) =
      some (mkWitnessUser "1" "a@b.c" "old" 3 (some 500) none
        [{ token := "tok", expires := 100, used := false }])) ∧
    (([mkWitnessUser "1" "a@b.c" "old" 3 (some 500) none
        [{ token := "tok", expires := 100, used := false }]].map
      (fun v => v.id)).Nodup) ∧
    ((reset_password (fun p => "h:" ++ p)
        [mkWitnessUser "1" "a@b.c" "old" 3 (some 500) none
          [{ token := "tok", expires := 100, used := false }]]
        "tok" "Passw0rd!" 50).1 = true ∧
     (find_user_by_id (reset_password (fun p => "h:" ++ p)
        [mkWitnessUser "1" "a@b.c" "old" 3 (some 500) none
          [{ token := "tok", expires := 100, used := false }]]
        "tok" "Passw0rd!" 50).2
        (mkWitnessUser "1" "a@b.c" "old" 3 (some 500) none
          [{ token := "tok", expires := 100, used := false }]).id).map
        (fun v => (v.password_hash, v.security.failed_login_attempts,
          v.security.account_locked_until)) =
      some ((fun p => "h:" ++ p) "Passw0rd!", 0, none)) :=
  ⟨by decide, rfl, by decide,
   C8_reset_password_unlocks (fun p => "h:" ++ p)
     [mkWitnessUser "1" "a@b.c" "old" 3 (some 500) none
       [{ token := "tok", expires := 100, used := false }]]
     "tok" "Passw0rd!" 50
     (mkWitnessUser "1" "a@b.c" "old" 3 (some 500) none
       [{ token := "tok", expires := 100, used := false }])
     (by decide) rfl (by decide)⟩

theorem verifySeq_cons (db : List UserRec) (email code : String) (t : Int)
    (calls : List (String × String × Int)) :
    verifySeq db ((email, code, t) :: calls) =
      ((verify_code db email code t).1 ::
        (verifySeq (verify_code db email code t).2 calls).1,
       (verifySeq (verify_code db email code t).2 calls).2) := rfl

theorem verify_code_no_code (db : List UserRec) (email code : String)
    (now : Int) (u : UserRec)
    (hfind : find_user_by_email db email = some u)
    (hcode : u.security.email_verification_code = none) :
    verify_code db email code now = (.no_code, db) := by
  simp [verify_code, hfind, hcode]

theorem verify_code_expired (db : List UserRec) (email code : String)
    (now : Int) (u : UserRec) (vd : VerificationCode)
    (hfind : find_user_by_email db email = some u)
    (hcode : u.security.email_verification_code = some vd)
    (hexp : vd.expires_at < now) :
    verify_code db email code now = (.expired, db) := by
  simp [verify_code, hfind, hcode, hexp]

theorem verify_code_exhausted (db : List UserRec) (email code : String)
    (now : Int) (u : UserRec) (vd : VerificationCode)
    (hfind : find_user_by_email db email = some u)
    (hcode : u.security.email_verification_code = some vd)
    (hexp : ¬ vd.expires_at < now)
    (hatt : MAX_ATTEMPTS ≤ vd.attempts) :
    verify_code db email code now = (.max_attempts, db) := by
  simp [verify_code, hfind, hcode, hexp, hatt]

theorem verify_code_wrong_step (db : List UserRec) (email code : String)
    (now : Int) (u : UserRec) (vd : VerificationCode)
    (hfind : find_user_by_email db email = some u)
    (hcode : u.security.email_verification_code = some vd)
    (hexp : ¬ vd.expires_at < now)
    (hatt : ¬ MAX_ATTEMPTS ≤ vd.attempts)
    (hne : code ≠ vd.code) :
    verify_code db email code now =
      (.invalid_code (MAX_ATTEMPTS - (vd.attempts + 1)),
       updateFirst (fun v => v.id == u.id) (fun v =>
         { v with security := { v.security with email_verification_code :=
             (v.security.email_verification_code.map (fun vd2 =>
               { vd2 with attempts := vd.attempts + 1 })) } }) db) := by
  simp [verify_code, hfind, hcode, hexp, hatt, hne, update_user]

theorem verify_code_success_step (db : List UserRec) (email code : String)
    (now : Int) (u : UserRec) (vd : VerificationCode)
    (hfind : find_user_by_email db email = some u)
    (hcode : u.security.email_verification_code = some vd)
    (hexp : ¬ vd.expires_at < now)
    (hatt : ¬ MAX_ATTEMPTS ≤ vd.attempts)
    (hmatch : code = vd.code) :
    verify_code db email code now =
      (.success u.id,
       updateFirst (fun v => v.id == u.id) (fun v =>
         { v with
           is_verified := true,
           security := { v.security with
             email_verification_code := none,
             email_verified_at := some now } }) db) := by
  simp [verify_code, hfind, hcode, hexp, hatt, hmatch, update_user]

/-- C3: after `create_verification_code` succeeds for a user, `verify_code`
with that user's email and the exact stored code (before expiry, attempts
0 < 5) returns success, sets `is_verified = true`, records
`email_verified_at` and clears the stored code, so an immediately following
`verify_code` with the same code returns the no-active-code result. -/
theorem C3_verification_round_trip (db : List UserRec) (email c : String)
    (tc tv tv2 : Int) (u : UserRec)
    (hfind : find_user_by_email db email = some u)
    (hids : (db.map (fun v => v.id)).Nodup)
    (hexp : tv ≤ tc + 60 * (CODE_EXPIRATION_MINUTES : Int)) :
    (create_verification_code c tc db u.id).1 =
      some { code := c, expires_at := tc + 60 * (CODE_EXPIRATION_MINUTES : Int),
             attempts := 0, created_at := tc } ∧
    (verify_code (create_verification_code c tc db u.id).2 email c tv).1 =
      .success u.id ∧
    (find_user_by_email
        (verify_code (create_verification_code c tc db u.id).2 email c tv).2
        email).map (fun v =>
      (v.is_verified, v.security.email_verified_at,
        v.security.email_verification_code)) = some (true, some tv, none) ∧
    verify_code
        (verify_code (create_verification_code c tc db u.id).2 email c tv).2
        email c tv2 =
      (.no_code,
       (verify_code (create_verification_code c tc db u.id).2 email c tv).2) := by
  have hany : db.any (fun v => v.id == u.id) = true :=
    any_id_of_find_email db email u hfind
  have hcr : create_verification_code c tc db u.id =
      (some ({ code := c, expires_at := tc + 60 * (CODE_EXPIRATION_MINUTES : Int), attempts := 0, created_at := tc } : VerificationCode),
       updateFirst (fun v => v.id == u.id) (fun v =>
         { v with
           security := { v.security with
             email_verification_code := some ({ code := c, expires_at := tc + 60 * (CODE_EXPIRATION_MINUTES : Int), attempts := 0, created_at := tc } : VerificationCode) } }) db) := by
    simp [create_verification_code, update_user, hany]
  have hf1 : find_user_by_email (create_verification_code c tc db u.id).2 email =
      some { u with
        security := { u.security with
          email_verification_code := some ({ code := c, expires_at := tc + 60 * (CODE_EXPIRATION_MINUTES : Int), attempts := 0, created_at := tc } : VerificationCode) } } := by
    rw [hcr]
    exact find_email_updateFirst_id email u _ rfl db hfind hids
  have hids1 : ((create_verification_code c tc db u.id).2.map
      (fun v => v.id)).Nodup := by
    rw [hcr]
    dsimp only
    apply nodup_ids_updateFirst
    · exact fun v => rfl
    · exact hids
  have hsucc := verify_code_success_step (create_verification_code c tc db u.id).2
    email c tv
    ({ u with
      security := { u.security with
        email_verification_code := some ({ code := c, expires_at := tc + 60 * (CODE_EXPIRATION_MINUTES : Int), attempts := 0, created_at := tc } : VerificationCode) } })
    ({ code := c, expires_at := tc + 60 * (CODE_EXPIRATION_MINUTES : Int), attempts := 0, created_at := tc } : VerificationCode)
    hf1 rfl (not_lt.mpr hexp) (show ¬ MAX_ATTEMPTS ≤ 0 by decide) rfl
  have hf2 : find_user_by_email
      (verify_code (create_verification_code c tc db u.id).2 email c tv).2
      email =
      some { u with
        is_verified := true,
        security := { u.security with
          email_verification_code := none,
          email_verified_at := some tv } } := by
    rw [hsucc]
    dsimp only
    exact find_email_updateFirst_id email
      ({ u with
        security := { u.security with
          email_verification_code := some ({ code := c, expires_at := tc + 60 * (CODE_EXPIRATION_MINUTES : Int), attempts := 0, created_at := tc } : VerificationCode) } })
      (fun v =>
        { v with
          is_verified := true,
          security := { v.security with
            email_verification_code := none,
            email_verified_at := some tv } })
      rfl
      (create_verification_code c tc db u.id).2 hf1 hids1
  refine ⟨?_, ?_, ?_, ?_⟩
  · rw [hcr]
  · rw [hsucc]
  · rw [hf2]
    rfl
  · exact verify_code_no_code _ email c tv2 _ hf2 rfl

/-- Concrete run of `C3_verification_round_trip`: code "438291" issued at
time 0, verified at time 60, re-submitted at time 61. -/
theorem C3_verification_round_trip_witness :
    (find_user_by_email [mkWitnessUser "1" "a@b.c" "pw" 0 none none []]
      "a@b.c" = some (mkWitnessUser "1" "a@b.c" "pw" 0 none none [])) ∧
    (([mkWitnessUser "1" "a@b.c" "pw" 0 none none []].map
      (fun v => v.id)).Nodup) ∧
    ((60 : Int) ≤ 0 + 60 * (CODE_EXPIRATION_MINUTES : Int)) ∧
    ((create_verification_code "438291" 0
        [mkWitnessUser "1" "a@b.c" "pw" 0 none none []]
        (mkWitnessUser "1" "a@b.c" "pw" 0 none none []).id).1 =
      some { code := "438291",
             expires_at := 0 + 60 * (CODE_EXPIRATION_MINUTES : Int),
             attempts := 0, created_at := 0 } ∧
     (verify_code (create_verification_code "438291" 0
        [mkWitnessUser "1" "a@b.c" "pw" 0 none none []]
        (mkWitnessUser "1" "a@b.c" "pw" 0 none none []).id).2
        "a@b.c" "438291" 60).1 =
      .success (mkWitnessUser "1" "a@b.c" "pw" 0 none none []).id ∧
     (find_user_by_email
        (verify_code (create_verification_code "438291" 0
          [mkWitnessUser "1" "a@b.c" "pw" 0 none none []]
          (mkWitnessUser "1" "a@b.c" "pw" 0 none none []).id).2
          "a@b.c" "438291" 60).2 "a@b.c").map (fun v =>
        (v.is_verified, v.security.email_verified_at,
          v.security.email_verification_code)) = some (true, some 60, none) ∧
     verify_code
        (verify_code (create_verification_code "438291" 0
          [mkWitnessUser "1" "a@b.c" "pw" 0 none none []]
          (mkWitnessUser "1" "a@b.c" "pw" 0 none none []).id).2
          "a@b.c" "438291" 60).2 "a@b.c" "438291" 61 =
      (.no_code,
       (verify_code (create_verification_code "438291" 0
          [mkWitnessUser "1" "a@b.c" "pw" 0 none none []]
          (mkWitnessUser "1" "a@b.c" "pw" 0 none none []).id).2
          "a@b.c" "438291" 60).2)) :=
  ⟨rfl, by decide, by decide,
   C3_verification_round_trip [mkWitnessUser "1" "a@b.c" "pw" 0 none none []]
     "a@b.c" "438291" 0 60 61
     (mkWitnessUser "1" "a@b.c" "pw" 0 none none [])
     rfl (by decide) (by decide)⟩

theorem verify_wrong_full_step (db : List UserRec) (email code : String)
    (t : Int) (u : UserRec) (vd : VerificationCode)
    (hfind : find_user_by_email db email = some u)
    (hids : (db.map (fun v => v.id)).Nodup)
    (hcode : u.security.email_verification_code = some vd)
    (hatt : vd.attempts < MAX_ATTEMPTS)
    (hexp : ¬ vd.expires_at < t)
    (hne : code ≠ vd.code) :
    (verify_code db email code t).1 =
      .invalid_code (MAX_ATTEMPTS - (vd.attempts + 1)) ∧
    find_user_by_email (verify_code db email code t).2 email =
      some { u with
        security := { u.security with
          email_verification_code := some { vd with attempts := vd.attempts + 1 } } } ∧
    (((verify_code db email code t).2).map (fun v => v.id)).Nodup := by
  have hstep := verify_code_wrong_step db email code t u vd hfind hcode hexp
    (Nat.not_le.mpr hatt) hne
  have hval : (fun v : UserRec =>
      { v with
        security := { v.security with
          email_verification_code :=
            (v.security.email_verification_code.map (fun vd2 =>
              { vd2 with attempts := vd.attempts + 1 })) } }) u =
      { u with
        security := { u.security with
          email_verification_code := some { vd with attempts := vd.attempts + 1 } } } := by
    dsimp only
    rw [hcode]
    rfl
  refine ⟨by rw [hstep], ?_, ?_⟩
  · rw [hstep]
    dsimp only
    rw [← hval]
    exact find_email_updateFirst_id email u (fun v =>
      { v with
        security := { v.security with
          email_verification_code :=
            (v.security.email_verification_code.map (fun vd2 =>
              { vd2 with attempts := vd.attempts + 1 })) } }) rfl db hfind hids
  · rw [hstep]
    dsimp only
    apply nodup_ids_updateFirst
    · exact fun v => rfl
    · exact hids

/-- C4: for an unexpired stored code with `attempts = k < 5`, a
`verify_code` call with a non-matching code increments the stored attempts
to k+1 and returns the invalid-code result with
`remaining_attempts = 5 - (k+1)` (a first wrong guess on a fresh code
reports 4 remaining); consequently six consecutive wrong guesses on a fresh
code return remaining 4, 3, 2, 1, 0 and then the max-attempts result. -/
theorem C4_wrong_code_attempts (db : List UserRec) (email : String)
    (u : UserRec)
    (hfind : find_user_by_email db email = some u)
    (hids : (db.map (fun v => v.id)).Nodup) :
    (∀ (code : String) (t : Int) (vd : VerificationCode),
      u.security.email_verification_code = some vd →
      vd.attempts < MAX_ATTEMPTS →
      ¬ vd.expires_at < t →
      code ≠ vd.code →
      (verify_code db email code t).1 =
        .invalid_code (MAX_ATTEMPTS - (vd.attempts + 1)) ∧
      (find_user_by_email (verify_code db email code t).2 email).map
        (fun v => v.security.email_verification_code.map
          (fun vd2 => vd2.attempts)) = some (some (vd.attempts + 1))) ∧
    (∀ (w : String) (t1 t2 t3 t4 t5 t6 : Int) (vd : VerificationCode),
      u.security.email_verification_code = some vd →
      vd.attempts = 0 →
      w ≠ vd.code →
      ¬ vd.expires_at < t1 → ¬ vd.expires_at < t2 → ¬ vd.expires_at < t3 →
      ¬ vd.expires_at < t4 → ¬ vd.expires_at < t5 → ¬ vd.expires_at < t6 →
      (verifySeq db [(email, w, t1), (email, w, t2), (email, w, t3),
        (email, w, t4), (email, w, t5), (email, w, t6)]).1 =
        [.invalid_code 4, .invalid_code 3, .invalid_code 2,
         .invalid_code 1, .invalid_code 0, .max_attempts]) := by
  constructor
  · intro code t vd hcode hatt hexp hne
    obtain ⟨h1, h2, _⟩ := verify_wrong_full_step db email code t u vd hfind
      hids hcode hatt hexp hne
    refine ⟨h1, ?_⟩
    rw [h2]
    rfl
  · intro w t1 t2 t3 t4 t5 t6 vd hcode hatt0 hne he1 he2 he3 he4 he5 he6
    obtain ⟨vc, ve, va, vr⟩ := vd
    have hva : va = 0 := hatt0
    subst hva
    obtain ⟨h1r, h1f, h1n⟩ := verify_wrong_full_step db email w t1 u
      ⟨vc, ve, 0, vr⟩ hfind hids hcode
      (show (0 : Nat) < MAX_ATTEMPTS by decide) he1 hne
    obtain ⟨h2r, h2f, h2n⟩ := verify_wrong_full_step _ email w t2 _ _
      h1f h1n rfl (show (1 : Nat) < MAX_ATTEMPTS by decide) he2 hne
    obtain ⟨h3r, h3f, h3n⟩ := verify_wrong_full_step _ email w t3 _ _
      h2f h2n rfl (show (2 : Nat) < MAX_ATTEMPTS by decide) he3 hne
    obtain ⟨h4r, h4f, h4n⟩ := verify_wrong_full_step _ email w t4 _ _
      h3f h3n rfl (show (3 : Nat) < MAX_ATTEMPTS by decide) he4 hne
    obtain ⟨h5r, h5f, h5n⟩ := verify_wrong_full_step _ email w t5 _ _
      h4f h4n rfl (show (4 : Nat) < MAX_ATTEMPTS by decide) he5 hne
    have h6 := verify_code_exhausted _ email w t6 _ _ h5f rfl he6
      (show MAX_ATTEMPTS ≤ 5 by decide)
    rw [verifySeq_cons]
    dsimp only
    rw [h1r, verifySeq_cons]
    dsimp only
    rw [h2r, verifySeq_cons]
    dsimp only
    rw [h3r, verifySeq_cons]
    dsimp only
    rw [h4r, verifySeq_cons]
    dsimp only
    rw [h5r, verifySeq_cons]
    dsimp only
    rw [h6]
    rfl

/-- Concrete run of `C4_wrong_code_attempts`: fresh code "438291" expiring
at 900, wrong guess "000000": one step reports 4 remaining and stores
attempts 1; six wrong guesses report 4, 3, 2, 1, 0 then max-attempts. -/
theorem C4_wrong_code_attempts_witness :
    (find_user_by_email
      [mkWitnessUser "1" "a@b.c" "pw" 0 none
        (some { code := "438291", expires_at := 900, attempts := 0, created_at := 0 }) []]
      "a@b.c" =
      some (mkWitnessUser "1" "a@b.c" "pw" 0 none
        (some { code := "438291", expires_at := 900, attempts := 0, created_at := 0 }) [])) ∧
    (([mkWitnessUser "1" "a@b.c" "pw" 0 none
        (some { code := "438291", expires_at := 900, attempts := 0, created_at := 0 }) []].map
      (fun v => v.id)).Nodup) ∧
    ((verify_code
        [mkWitnessUser "1" "a@b.c" "pw" 0 none
          (some { code := "438291", expires_at := 900, attempts := 0, created_at := 0 }) []]
        "a@b.c" "000000" 60).1 = .invalid_code 4 ∧
     (find_user_by_email (verify_code
        [mkWitnessUser "1" "a@b.c" "pw" 0 none
          (some { code := "438291", expires_at := 900, attempts := 0, created_at := 0 }) []]
        "a@b.c" "000000" 60).2 "a@b.c").map
        (fun v => v.security.email_verification_code.map
          (fun vd2 => vd2.attempts)) = some (some 1)) ∧
    ((verifySeq
        [mkWitnessUser "1" "a@b.c" "pw" 0 none
          (some { code := "438291", expires_at := 900, attempts := 0, created_at := 0 }) []]
        [("a@b.c", "000000", 10), ("a@b.c", "000000", 11), ("a@b.c", "000000", 12),
         ("a@b.c", "000000", 13), ("a@b.c", "000000", 14), ("a@b.c", "000000", 15)]).1 =
      [.invalid_code 4, .invalid_code 3, .invalid_code 2,
       .invalid_code 1, .invalid_code 0, .max_attempts]) := by
  have h := C4_wrong_code_attempts
    [mkWitnessUser "1" "a@b.c" "pw" 0 none
      (some { code := "438291", expires_at := 900, attempts := 0, created_at := 0 }) []]
    "a@b.c"
    (mkWitnessUser "1" "a@b.c" "pw" 0 none
      (some { code := "438291", expires_at := 900, attempts := 0, created_at := 0 }) [])
    rfl (by decide)
  have h1 := h.1 "000000" 60
    { code := "438291", expires_at := 900, attempts := 0, created_at := 0 }
    rfl (by decide) (by decide) (by decide)
  have h2 := h.2 "000000" 10 11 12 13 14 15
    { code := "438291", expires_at := 900, attempts := 0, created_at := 0 }
    rfl rfl (by decide) (by decide) (by decide) (by decide) (by decide)
    (by decide) (by decide)
  exact ⟨rfl, by decide, h1, h2⟩

theorem verify_code_preserves_AttemptsOK (db : List UserRec)
    (email code : String) (now : Int) (h : AttemptsOK db) :
    AttemptsOK (verify_code db email code now).2 := by
  rcases hf : find_user_by_email db email with _ | u
  · rw [show (verify_code db email code now).2 = db from by
      simp [verify_code, hf]]
    exact h
  · rcases hc : u.security.email_verification_code with _ | vd
    · rw [show (verify_code db email code now).2 = db from by
        rw [verify_code_no_code db email code now u hf hc]]
      exact h
    · by_cases hexp : vd.expires_at < now
      · rw [show (verify_code db email code now).2 = db from by
          rw [verify_code_expired db email code now u vd hf hc hexp]]
        exact h
      · by_cases hatt : MAX_ATTEMPTS ≤ vd.attempts
        · rw [show (verify_code db email code now).2 = db from by
            rw [verify_code_exhausted db email code now u vd hf hc hexp hatt]]
          exact h
        · by_cases hmatch : code = vd.code
          · rw [show (verify_code db email code now).2 =
                updateFirst (fun v => v.id == u.id) (fun v =>
                  { v with
                    is_verified := true,
                    security := { v.security with
                      email_verification_code := none,
                      email_verified_at := some now } }) db from by
              rw [verify_code_success_step db email code now u vd hf hc hexp
                hatt hmatch]]
            intro v hv vd2 hvd2
            rcases mem_updateFirst _ _ db v hv with hm | ⟨w, hw, _, hvw⟩
            · exact h v hm vd2 hvd2
            · subst hvw
              simp at hvd2
          · rw [show (verify_code db email code now).2 =
                updateFirst (fun v => v.id == u.id) (fun v =>
                  { v with
                    security := { v.security with
                      email_verification_code :=
                        (v.security.email_verification_code.map (fun vd2 =>
                          { vd2 with attempts := vd.attempts + 1 })) } }) db from by
              rw [verify_code_wrong_step db email code now u vd hf hc hexp
                hatt hmatch]]
            intro v hv vd2 hvd2
            rcases mem_updateFirst _ _ db v hv with hm | ⟨w, hw, _, hvw⟩
            · exact h v hm vd2 hvd2
            · subst hvw
              dsimp only at hvd2
              rcases hwc : w.security.email_verification_code with _ | vdw
              · rw [hwc] at hvd2
                simp at hvd2
              · rw [hwc] at hvd2
                simp only [Option.map_some'] at hvd2
                injection hvd2 with h2
                rw [← h2]
                show vd.attempts + 1 ≤ MAX_ATTEMPTS
                have hlt := Nat.not_le.mp hatt
                simp only [MAX_ATTEMPTS] at hlt ⊢
                omega

theorem verifySeq_preserves_AttemptsOK :
    ∀ (calls : List (String × String × Int)) (db : List UserRec),
      AttemptsOK db → AttemptsOK (verifySeq db calls).2 := by
  intro calls
  induction calls with
  | nil => intro db h; exact h
  | cons c rest ih =>
      intro db h
      obtain ⟨e, co, t⟩ := c
      rw [verifySeq_cons]
      exact ih _ (verify_code_preserves_AttemptsOK db e co t h)

theorem verify_code_exhausted_no_success (db : List UserRec)
    (email code : String) (t : Int) (u : UserRec) (vd : VerificationCode)
    (hfind : find_user_by_email db email = some u)
    (hcode : u.security.email_verification_code = some vd)
    (hatt : MAX_ATTEMPTS ≤ vd.attempts) :
    (verify_code db email code t).1.isSuccess = false := by
  by_cases hexp : vd.expires_at < t
  · rw [verify_code_expired db email code t u vd hfind hcode hexp]
    rfl
  · rw [verify_code_exhausted db email code t u vd hfind hcode hexp hatt]
    rfl

/-- C6: over any sequence of `verify_code` calls, a stored verification
code's `attempts` counter never exceeds `MAX_ATTEMPTS` (5); and once a
user's stored code has `attempts ≥ 5`, no `verify_code` call on that user
returns success — even with the exactly matching, unexpired code. -/
theorem C6_attempts_invariant (db : List UserRec) :
    (AttemptsOK db →
      ∀ calls : List (String × String × Int),
        AttemptsOK (verifySeq db calls).2) ∧
    (∀ (email code : String) (t : Int) (u : UserRec) (vd : VerificationCode),
      find_user_by_email db email = some u →
      u.security.email_verification_code = some vd →
      MAX_ATTEMPTS ≤ vd.attempts →
      (verify_code db email code t).1.isSuccess = false) :=
  ⟨fun h calls => verifySeq_preserves_AttemptsOK calls db h,
   fun email code t u vd hfind hcode hatt =>
     verify_code_exhausted_no_success db email code t u vd hfind hcode hatt⟩

/-- Concrete run of `C6_attempts_invariant`: a store whose only code has
attempts 2 keeps the bound through a wrong-guess call; a user whose code
has attempts 5 cannot verify even with the exact unexpired code. -/
theorem C6_attempts_invariant_witness :
    AttemptsOK [mkWitnessUser "1" "a@b.c" "pw" 0 none
      (some { code := "438291", expires_at := 900, attempts := 2, created_at := 0 }) []] ∧
    AttemptsOK (verifySeq
      [mkWitnessUser "1" "a@b.c" "pw" 0 none
        (some { code := "438291", expires_at := 900, attempts := 2, created_at := 0 }) []]
      [("a@b.c", "000000", 10)]).2 ∧
    (find_user_by_email
      [mkWitnessUser "2" "d@b.c" "pw" 0 none
        (some { code := "438291", expires_at := 900, attempts := 5, created_at := 0 }) []]
      "d@b.c" =
      some (mkWitnessUser "2" "d@b.c" "pw" 0 none
        (some { code := "438291", expires_at := 900, attempts := 5, created_at := 0 }) [])) ∧
    (MAX_ATTEMPTS ≤ (5 : Nat)) ∧
    (verify_code
      [mkWitnessUser "2" "d@b.c" "pw" 0 none
        (some { code := "438291", expires_at := 900, attempts := 5, created_at := 0 }) []]
      "d@b.c" "438291" 10).1.isSuccess = false := by
  have hok : AttemptsOK [mkWitnessUser "1" "a@b.c" "pw" 0 none
      (some { code := "438291", expires_at := 900, attempts := 2, created_at := 0 }) []] := by
    intro v hv vd hvd
    rw [List.mem_singleton] at hv
    subst hv
    rw [show (mkWitnessUser "1" "a@b.c" "pw" 0 none
      (some { code := "438291", expires_at := 900, attempts := 2, created_at := 0 })
      []).security.email_verification_code =
      some { code := "438291", expires_at := 900, attempts := 2, created_at := 0 }
      from rfl] at hvd
    injection hvd with h2
    rw [← h2]
    decide
  refine ⟨hok, ?_, rfl, by decide, ?_⟩
  · exact (C6_attempts_invariant _).1 hok [("a@b.c", "000000", 10)]
  · exact (C6_attempts_invariant _).2 "d@b.c" "438291" 10
      (mkWitnessUser "2" "d@b.c" "pw" 0 none
        (some { code := "438291", expires_at := 900, attempts := 5, created_at := 0 }) [])
      { code := "438291", expires_at := 900, attempts := 5, created_at := 0 }
      rfl rfl (by decide)
